import Mathlib

/-!
# Verification of the microdrum control/evaluation layer

Shallow embedding of `microutils.py`: the discrete-time PID controller,
the `calc_metrics` / `load_history` validation contract, the
`find_latest_file` artifact locator, the `pid_objective` tuning objective
returned by `tune_pid`, and the sequential multi-agent control loop
`marl_control_loop`.  Real numbers are modelled as `ℚ`; raising an
assertion is modelled by returning `none`; the external environment
collaborators are modelled as records of transition functions.
-/

/-- `np.clip(x, lo, hi)`: numpy applies the lower bound first, then the
upper bound, so when `lo > hi` the result is `hi`. -/
def npClip (x lo hi : ℚ) : ℚ := min (max x lo) hi

/-- State of `PIDController` (`microutils.py` lines 18-37): the four
constructor parameters and the four mutable attributes, in source order. -/
structure PIDController where
  Kp : ℚ
  Ki : ℚ
  Kd : ℚ
  max_rate : ℚ
  integral : ℚ
  err_prev : ℚ
  t_prev : ℚ
  deriv_prev : ℚ
deriving DecidableEq, Repr

/-- `PIDController.__init__(Kp, Ki, Kd, max_rate)`: the mutable attributes
all start at `0.0`. -/
def PIDController.make (Kp Ki Kd max_rate : ℚ) : PIDController :=
  ⟨Kp, Ki, Kd, max_rate, 0, 0, 0, 0⟩

/-- `PIDController.update(measurement, setpoint)` (lines 39-52).  Python
mutates `self`; here the new controller state is returned together with
the saturated command (`np.clip` wraps it in a 1-element array, modelled
as the scalar). -/
def PIDController.update (c : PIDController) (measurement setpoint : ℚ) :
    PIDController × ℚ :=
  let err := setpoint - measurement
  let del_t : ℚ := 1
  let integral := c.integral + c.Ki * err * del_t
  let deriv_prev := (err - c.err_prev) / del_t
  let err_prev := err
  let command := c.Kp * err + integral + c.Kd * deriv_prev
  let command_sat := npClip command (-c.max_rate) c.max_rate
  (⟨c.Kp, c.Ki, c.Kd, c.max_rate, integral, err_prev, c.t_prev, deriv_prev⟩,
   command_sat)

/-- One row of a run-history table: the columns of the CSV that
`calc_metrics` / `load_history` read. -/
structure Row where
  time : ℚ
  desired_power : ℚ
  actual_power : ℚ
  drum_1 : ℚ
  drum_2 : ℚ
  drum_3 : ℚ
  drum_4 : ℚ
  drum_5 : ℚ
  drum_6 : ℚ
  drum_7 : ℚ
  drum_8 : ℚ
deriving DecidableEq, Repr, Inhabited

/-- The 8 drum-angle columns of a row, in column order
(`history[['drum_1', ..., 'drum_8']]`). -/
def Row.drums (r : Row) : List ℚ :=
  [r.drum_1, r.drum_2, r.drum_3, r.drum_4, r.drum_5, r.drum_6, r.drum_7, r.drum_8]

/-- `np.sum(np.abs(np.diff(drum_angles, axis=0)))`: the sum over every
pair of consecutive rows of the componentwise absolute drum-angle
differences. -/
def drumSpeedSum : List Row → ℚ
  | r1 :: r2 :: rest =>
      (List.zipWith (fun a b => |b - a|) r1.drums r2.drums).sum
        + drumSpeedSum (r2 :: rest)
  | _ => 0

/-- `calc_metrics(history)` (lines 113-123).  The leading assertion
`history['time'][1] - history['time'][0] == 1` needs at least two rows
(pandas raises on `[1]` otherwise) and is modelled by `none`. -/
def calc_metrics (history : List Row) : Option (ℚ × ℚ × ℚ) :=
  match history with
  | r0 :: r1 :: _ =>
    if r1.time - r0.time = 1 then
      let absolute_error :=
        history.map (fun r => |r.desired_power - r.actual_power|)
      let mean_absolute_error := absolute_error.sum / (history.length : ℚ)
      let integral_absolute_error := absolute_error.sum
      let control_effort := drumSpeedSum history
      some (mean_absolute_error, integral_absolute_error, control_effort)
    else none
  | _ => none

/-- `load_history(history_path)` (lines 105-110), applied to the parsed
table: asserts `desired_power[0] == 1` then `drum_8[0] == 77.8` and
returns the table.  An empty table raises on the `[0]` access. -/
def load_history (history : List Row) : Option (List Row) :=
  match history with
  | [] => none
  | r0 :: _ =>
    if r0.desired_power = 1 then
      if r0.drum_8 = 778 / 10 then some history else none
    else none

/-- A directory entry as seen by `pathlib` globbing: its name, its
modification time (`os.path.getmtime`), and whether `is_file()` holds. -/
structure Entry where
  name : String
  mtime : ℚ
  isFile : Bool
deriving DecidableEq, Repr

/-- A folder as seen by `find_latest_file`: whether the path exists, and
the entries in the (deterministic) order `glob` enumerates them. -/
structure Folder where
  pathExists : Bool
  entries : List Entry
deriving DecidableEq, Repr

/-- `folder_path.glob(pattern)`: the entries whose names match the glob
pattern, in enumeration order.  Glob-pattern matching itself is external
(`pathlib`), so the pattern is modelled as a predicate on names. -/
def globMatches (folder : Folder) (pattern : String → Bool) : List Entry :=
  folder.entries.filter (fun e => pattern e.name)

/-- `find_latest_file(folder_path, pattern)` (lines 97-102).  `sorted(...,
key=os.path.getmtime, reverse=True)` is a stable descending sort by
mtime, modelled by `List.mergeSort`; each failed `assert` is `none`. -/
def find_latest_file (folder : Folder) (pattern : String → Bool) : Option Entry :=
  if folder.pathExists then
    match (globMatches folder pattern).mergeSort
        (fun a b => decide (b.mtime ≤ a.mtime)) with
    | [] => none
    | latest :: _ => if latest.isFile then some latest else none
  else none

/-- Observation returned by the single-agent environment: the loop and
the tuning objective read only its `power` field (fractional units). -/
structure SObs where
  power : ℚ
deriving DecidableEq, Repr

/-- The single-agent environment collaborator (`envs.HolosSingle`) as the
tuning objective uses it: `reset`, `step`, the `profile(t)` setpoint
lookup, the current `time`, `render()` (finalize), and the recorded
history (`holos_env.multi_env.history`).  `σ` is its hidden state. -/
structure SingleEnv (σ : Type) where
  reset : σ → σ × SObs
  step : σ → ℚ → σ × SObs × Bool × Bool
  profile : ℚ → ℚ
  time : σ → ℚ
  render : σ → σ
  history : σ → List Row

/-- One iteration of the `pid_objective` while-loop body (lines 79-81):
compute the PID action from `obs['power']*100` and
`profile(time+1)`, step the environment, and report the post-step
`(power, terminated, truncated)`. -/
def sysStep (env : SingleEnv σ) (t : PIDController × σ × SObs) :
    (PIDController × σ × SObs) × (ℚ × Bool × Bool) :=
  let (c, s, obs) := t
  let (c', action) := c.update (obs.power * 100) (env.profile (env.time s + 1))
  let (s', obs', terminated, truncated) := env.step s action
  ((c', s', obs'), (obs'.power, terminated, truncated))

/-- The controller/environment pair after `n` iterations of the loop
body, ignoring all exit conditions. -/
def runSys (env : SingleEnv σ) : ℕ → PIDController × σ × SObs → PIDController × σ × SObs
  | 0, t => t
  | n + 1, t => runSys env n (sysStep env t).1

/-- The `(power, terminated, truncated)` observed after the `(j+1)`-th
step of the loop started at `t` (0-indexed: `stepInfo env t 0` is the
first step's result). -/
def stepInfo (env : SingleEnv σ) (t : PIDController × σ × SObs) (j : ℕ) :
    ℚ × Bool × Bool :=
  (sysStep env (runSys env j t)).2

/-- What `pid_objective` returns: the runaway penalty `1000 * power`, the
`integral_absolute_error` from `calc_metrics`, or the assertion error
`calc_metrics` raises. -/
inductive ObjValue where
  | penalty (v : ℚ)
  | iae (v : ℚ)
  | metricsError
deriving DecidableEq, Repr

/-- Outcome of one `pid_objective` call: the returned value, how many
times the environment was stepped, and whether `render()` (the
history-finalizing hook) was called. -/
structure ObjOutcome where
  value : ObjValue
  steps : ℕ
  rendered : Bool
deriving DecidableEq, Repr

/-- Lines 88-91 of `pid_objective`: after the loop exits normally, call
`render()` and return the middle component (the IAE) of
`calc_metrics(holos_env.multi_env.history)`. -/
def objFinish (env : SingleEnv σ) (s : σ) : ObjValue :=
  match calc_metrics (env.history (env.render s)) with
  | some (_, iae, _) => .iae iae
  | none => .metricsError

/-- The `while not done` loop of `pid_objective` (lines 77-91), fuel-
bounded (`none` = fuel exhausted).  Per iteration: step (via `sysStep`);
if the post-step power exceeds `1.2`, return the penalty at once (the
power check runs even on a terminated/truncated step, since it follows
the `done = True` assignment); otherwise if terminated or truncated,
leave the loop, render and compute metrics; otherwise continue. -/
def pid_objective_loop (env : SingleEnv σ) :
    ℕ → PIDController × σ × SObs → ℕ → Option ObjOutcome
  | 0, _, _ => none
  | fuel + 1, t, steps =>
    match sysStep env t with
    | (t', (p, terminated, truncated)) =>
      if p > 6 / 5 then
        some ⟨.penalty (1000 * p), steps + 1, false⟩
      else if terminated || truncated then
        some ⟨objFinish env t'.2.1, steps + 1, true⟩
      else
        pid_objective_loop env fuel t' (steps + 1)

/-- `pid_objective(params)` (lines 73-91): build a fresh
`PIDController(p_gain, i_gain, d_gain)` (so `max_rate` keeps its default
`1`), reset the environment, and run the loop. -/
def pid_objective (env : SingleEnv σ) (p_gain i_gain d_gain : ℚ)
    (fuel : ℕ) (s : σ) : Option ObjOutcome :=
  let controller := PIDController.make p_gain i_gain d_gain 1
  let (s', obs) := env.reset s
  pid_objective_loop env fuel (controller, s', obs) 0

/-- The agent-sequential environment collaborator (`parallel_to_aec`
wrapper) as `marl_control_loop` uses it: `reset`, the current agent's
`last() = (obs, reward, terminated, truncated)` (the unused `info` is
dropped), `step`, and `render`.  `σ` is its hidden state; `O`/`A` are
observation/action types. -/
structure AECEnv (σ O A : Type) where
  reset : σ → σ
  last : σ → O × ℚ × Bool × Bool
  step : σ → A → σ
  render : σ → σ

/-- The `for agent in env.agent_iter()` loop of `marl_control_loop`
(lines 209-216).  `fuel` bounds the number of agent turns the iterator
can yield (it is finite).  Returns the final state after `render()`
together with the number of `model.predict` calls and the number of
`env.step` calls made. -/
def marl_loop_iter (env : AECEnv σ O A) (predict : O → A) :
    ℕ → σ → σ × ℕ × ℕ
  | 0, s => (env.render s, 0, 0)
  | fuel + 1, s =>
    match env.last s with
    | (obs, _, terminated, truncated) =>
      if terminated || truncated then
        (env.render s, 0, 0)
      else
        let action := predict obs
        match marl_loop_iter env predict fuel (env.step s action) with
        | (sFinal, numPredicts, numSteps) => (sFinal, numPredicts + 1, numSteps + 1)

/-- `marl_control_loop(model, env)` (lines 206-216): reset, iterate the
agent loop, render on exit. -/
def marl_control_loop (env : AECEnv σ O A) (predict : O → A)
    (fuel : ℕ) (s : σ) : σ × ℕ × ℕ :=
  marl_loop_iter env predict fuel (env.reset s)

/-- Concrete controller refuting C2 as stated: constructed with
`max_rate = -1`. -/
def c2Controller : PIDController := PIDController.make 1 0 0 (-1)

/-- Sample steady-state first row (desired power 1, drum_8 = 77.8). -/
def goodRow : Row := ⟨0, 1, 1, 10, 20, 30, 40, 50, 60, 70, 778 / 10⟩

/-- Second sample row, one time unit later. -/
def goodRow1 : Row := ⟨1, 1, 1, 10, 20, 30, 41, 50, 60, 70, 778 / 10⟩

/-- Third sample row with a non-unit time jump (time 1 → 7). -/
def jumpRow : Row := ⟨7, 2, 1, 10, 20, 30, 41, 50, 62, 70, 778 / 10⟩

/-- C3: every `PIDController.update(measurement, setpoint)` call computes
`error = setpoint - measurement`, adds `Ki * error * 1` to the integral
accumulator, sets the derivative to `(error - previous_error) / 1`,
unconditionally overwrites `previous_error` with `error`, leaves the
gains, `max_rate` and `t_prev` unchanged, and returns
`Kp*error + integral + Kd*derivative` clamped (`np.clip`) to
`[-max_rate, +max_rate]`. -/
theorem update_computes_pid_step (c : PIDController) (measurement setpoint : ℚ) :
    (c.update measurement setpoint).1.integral
        = c.integral + c.Ki * (setpoint - measurement) * 1
    ∧ (c.update measurement setpoint).1.deriv_prev
        = ((setpoint - measurement) - c.err_prev) / 1
    ∧ (c.update measurement setpoint).1.err_prev = setpoint - measurement
    ∧ (c.update measurement setpoint).1.Kp = c.Kp
    ∧ (c.update measurement setpoint).1.Ki = c.Ki
    ∧ (c.update measurement setpoint).1.Kd = c.Kd
    ∧ (c.update measurement setpoint).1.max_rate = c.max_rate
    ∧ (c.update measurement setpoint).1.t_prev = c.t_prev
    ∧ (c.update measurement setpoint).2
        = npClip (c.Kp * (setpoint - measurement)
            + (c.integral + c.Ki * (setpoint - measurement) * 1)
            + c.Kd * (((setpoint - measurement) - c.err_prev) / 1))
            (-c.max_rate) c.max_rate :=
  ⟨rfl, rfl, rfl, rfl, rfl, rfl, rfl, rfl, rfl⟩

/-- C2 counterexample: with constructor arguments
`(Kp, Ki, Kd, max_rate) = (1, 0, 0, -1)`, measurement `0` and setpoint
`0`, the returned value (`np.clip` yields `-1` since the lower bound `1`
exceeds the upper bound `-1`) does not lie within
`[-max_rate, +max_rate] = [1, -1]`. -/
theorem update_out_of_band_for_negative_max_rate :
    ¬(-c2Controller.max_rate ≤ (c2Controller.update 0 0).2
      ∧ (c2Controller.update 0 0).2 ≤ c2Controller.max_rate) := by
  norm_num [c2Controller, PIDController.make, PIDController.update, npClip]

/-- C2 (amended): whenever the configured `max_rate` is nonnegative, the
value returned by `PIDController.update` lies within
`[-max_rate, +max_rate]`, for every measurement, setpoint and internal
state (hence for every state reachable through prior update calls). -/
theorem update_within_rate_bound (c : PIDController) (measurement setpoint : ℚ)
    (hmr : 0 ≤ c.max_rate) :
    -c.max_rate ≤ (c.update measurement setpoint).2
      ∧ (c.update measurement setpoint).2 ≤ c.max_rate := by
  show -c.max_rate ≤ npClip _ (-c.max_rate) c.max_rate
    ∧ npClip _ (-c.max_rate) c.max_rate ≤ c.max_rate
  unfold npClip
  exact ⟨le_min (le_max_right _ _) (by linarith), min_le_right _ _⟩

/-- Witness for C2 (amended) at the default gains `(0.078, 0, 0.3, 1)`,
measurement `90`, setpoint `100`. -/
theorem update_within_rate_bound_witness :
    0 ≤ (PIDController.make (78/1000) 0 (3/10) 1).max_rate
    ∧ (-(PIDController.make (78/1000) 0 (3/10) 1).max_rate
          ≤ ((PIDController.make (78/1000) 0 (3/10) 1).update 90 100).2
        ∧ ((PIDController.make (78/1000) 0 (3/10) 1).update 90 100).2
          ≤ (PIDController.make (78/1000) 0 (3/10) 1).max_rate) :=
  ⟨by decide, update_within_rate_bound (PIDController.make (78/1000) 0 (3/10) 1)
    90 100 (by decide)⟩

/-- C6: `calc_metrics` fails (its leading assertion raises, modelled by
`none`) on every history whose first two `time` values differ by
anything other than `1`. -/
theorem calc_metrics_rejects_nonunit_first_step (r0 r1 : Row) (rest : List Row)
    (h : r1.time - r0.time ≠ 1) :
    calc_metrics (r0 :: r1 :: rest) = none := by
  simp [calc_metrics, h]

/-- Witness for C6: first two time values `0` and `7` (difference `7`). -/
theorem calc_metrics_rejects_nonunit_first_step_witness :
    jumpRow.time - goodRow.time ≠ 1
    ∧ calc_metrics [goodRow, jumpRow] = none :=
  ⟨by norm_num [jumpRow, goodRow],
   calc_metrics_rejects_nonunit_first_step goodRow jumpRow []
     (by norm_num [jumpRow, goodRow])⟩

/-- C8: `load_history` fails (modelled by `none`) on every table whose
first `desired_power` is not `1` or whose first `drum_8` is not `77.8`,
whatever the remaining rows are; when both first-row checks pass it
returns the loaded table. -/
theorem load_history_first_row_checks (r0 : Row) (rest : List Row) :
    ((r0.desired_power ≠ 1 ∨ r0.drum_8 ≠ 778 / 10) →
        load_history (r0 :: rest) = none)
    ∧ (r0.desired_power = 1 → r0.drum_8 = 778 / 10 →
        load_history (r0 :: rest) = some (r0 :: rest)) := by
  refine ⟨fun h => ?_, fun h1 h2 => by simp [load_history, h1, h2]⟩
  rcases h with h | h
  · simp [load_history, h]
  · by_cases hd : r0.desired_power = 1 <;> simp [load_history, hd, h]

/-- Witness for C8: a malformed first row (`desired_power = 2`) is
rejected, and the steady-state first row is accepted. -/
theorem load_history_first_row_checks_witness :
    (jumpRow.desired_power ≠ 1 ∨ jumpRow.drum_8 ≠ 778 / 10)
    ∧ load_history [jumpRow, goodRow] = none :=
  ⟨Or.inl (by decide),
   (load_history_first_row_checks jumpRow [goodRow]).1 (Or.inl (by decide))⟩

/-- C9: `calc_metrics` validates only the time difference between the
first two rows: when that difference is `1`, it returns the
uniform-unit-step metrics even when some later pair of consecutive rows
has a time difference other than `1`. -/
theorem calc_metrics_ignores_later_steps (r0 r1 : Row) (rest : List Row)
    (h1 : r1.time - r0.time = 1) (i : ℕ) (hi : i + 1 < (r1 :: rest).length)
    (hbad : ((r1 :: rest).getD (i + 1) default).time
        - ((r1 :: rest).getD i default).time ≠ 1) :
    calc_metrics (r0 :: r1 :: rest)
      = some ((((r0 :: r1 :: rest).map
            (fun r => |r.desired_power - r.actual_power|)).sum)
              / ((r0 :: r1 :: rest).length : ℚ),
          (((r0 :: r1 :: rest).map
            (fun r => |r.desired_power - r.actual_power|)).sum),
          drumSpeedSum (r0 :: r1 :: rest)) := by
  simp [calc_metrics, h1]

/-- Witness for C9: times `0, 1, 7` — the second step is 6 units long,
yet metrics are returned. -/
theorem calc_metrics_ignores_later_steps_witness :
    goodRow1.time - goodRow.time = 1
    ∧ ((([goodRow1, jumpRow] : List Row).getD 1 default).time
        - (([goodRow1, jumpRow] : List Row).getD 0 default).time ≠ 1)
    ∧ calc_metrics [goodRow, goodRow1, jumpRow]
      = some (((([goodRow, goodRow1, jumpRow] : List Row).map
            (fun r => |r.desired_power - r.actual_power|)).sum)
              / (([goodRow, goodRow1, jumpRow] : List Row).length : ℚ),
          ((([goodRow, goodRow1, jumpRow] : List Row).map
            (fun r => |r.desired_power - r.actual_power|)).sum),
          drumSpeedSum [goodRow, goodRow1, jumpRow]) :=
  ⟨by norm_num [goodRow, goodRow1], by norm_num [goodRow1, jumpRow],
   calc_metrics_ignores_later_steps goodRow goodRow1 [jumpRow]
     (by norm_num [goodRow, goodRow1]) 0 (by norm_num)
     (by norm_num [goodRow1, jumpRow])⟩

/-- C4: in the sequential multi-agent loop, termination is checked
before acting on every agent turn: whenever the current agent's `last()`
reports `terminated` or `truncated`, the loop exits at once — the state
is only finalized by `render`, the policy's `predict` is called `0`
times and the environment is stepped `0` times.  In particular this
holds on turn 1, right after `reset`. -/
theorem marl_loop_checks_termination_first {σ O A : Type}
    (env : AECEnv σ O A) (predict : O → A) :
    (∀ (fuel : ℕ) (s : σ),
        ((env.last s).2.2.1 = true ∨ (env.last s).2.2.2 = true) →
        marl_loop_iter env predict fuel s = (env.render s, 0, 0))
    ∧ (∀ (fuel : ℕ) (s : σ),
        ((env.last (env.reset s)).2.2.1 = true
          ∨ (env.last (env.reset s)).2.2.2 = true) →
        marl_control_loop env predict fuel s = (env.render (env.reset s), 0, 0)) := by
  have hiter : ∀ (fuel : ℕ) (s : σ),
      ((env.last s).2.2.1 = true ∨ (env.last s).2.2.2 = true) →
      marl_loop_iter env predict fuel s = (env.render s, 0, 0) := by
    intro fuel s h
    cases fuel with
    | zero => rfl
    | succ n =>
      rcases hL : env.last s with ⟨obs, rew, terminated, truncated⟩
      have hb : (terminated || truncated) = true := by
        rcases h with h | h <;> rw [hL] at h <;> simp at h <;> simp [h]
      simp [marl_loop_iter, hL, hb]
  exact ⟨hiter, fun fuel s h => hiter fuel (env.reset s) h⟩

/-- Concrete agent-sequential environment for the C4 witness: state is a
turn counter; after `reset` the first agent already reports
`terminated = true`. -/
def c4Env : AECEnv ℕ ℚ ℚ :=
  ⟨fun s => s + 1,
   fun s => (0, 0, decide (1 ≤ s), false),
   fun s _ => s + 1,
   fun s => s + 100⟩

/-- Witness for C4: on `c4Env` the first agent visited reports
`terminated = true`, and the loop exits with the policy never invoked
and the environment never stepped. -/
theorem marl_loop_checks_termination_first_witness :
    (c4Env.last (c4Env.reset 0)).2.2.1 = true
    ∧ marl_control_loop c4Env (fun o => o) 5 0 = (c4Env.render (c4Env.reset 0), 0, 0) :=
  ⟨rfl, (marl_loop_checks_termination_first c4Env (fun o => o)).2 5 0 (Or.inl rfl)⟩

/-- The spec's absolute error of row `i`:
`|desired_power[i] - actual_power[i]|`. -/
def specAbsError (h : List Row) (i : ℕ) : ℚ :=
  |(h.getD i default).desired_power - (h.getD i default).actual_power|

/-- The spec's control effort: the sum of `|Δ drum_angle|` over all 8
drum columns and all consecutive row pairs. -/
def specControlEffort (h : List Row) : ℚ :=
  ∑ i ∈ Finset.range (h.length - 1), ∑ d ∈ Finset.range 8,
    |((h.getD (i + 1) default).drums.getD d 0)
      - ((h.getD i default).drums.getD d 0)|

theorem sum_map_eq_sum_range (f : Row → ℚ) :
    ∀ h : List Row,
      (h.map f).sum = ∑ i ∈ Finset.range h.length, f (h.getD i default)
  | [] => by simp
  | r :: h => by
    rw [List.map_cons, List.sum_cons, sum_map_eq_sum_range f h,
      List.length_cons, Finset.sum_range_succ']
    simp [add_comm]

theorem zipWith_drums_sum (a b : Row) :
    (List.zipWith (fun x y => |y - x|) a.drums b.drums).sum
      = ∑ d ∈ Finset.range 8, |b.drums.getD d 0 - a.drums.getD d 0| := by
  simp [Row.drums, Finset.sum_range_succ]
  ring

theorem drumSpeedSum_eq_specControlEffort :
    ∀ h : List Row, drumSpeedSum h = specControlEffort h
  | [] => by simp [drumSpeedSum, specControlEffort]
  | [r] => by simp [drumSpeedSum, specControlEffort]
  | r1 :: r2 :: rest => by
    have ih := drumSpeedSum_eq_specControlEffort (r2 :: rest)
    rw [drumSpeedSum, ih, zipWith_drums_sum]
    unfold specControlEffort
    rw [List.length_cons, List.length_cons, List.length_cons,
      Nat.add_sub_cancel, Nat.add_sub_cancel]
    conv_rhs => rw [Finset.sum_range_succ']
    have hswap : ∀ x y z w : ℚ, x = w → y = z → x + y = z + w := by
      intro x y z w hxw hyz
      rw [hxw, hyz, add_comm]
    refine hswap _ _ _ _ ?_ ?_
    · refine Finset.sum_congr rfl fun d _ => ?_
      rw [List.getD_cons_succ, List.getD_cons_zero, List.getD_cons_zero]
    · refine Finset.sum_congr rfl fun i _ => Finset.sum_congr rfl fun d _ => ?_
      simp only [List.getD_cons_succ]

/-- C5: on every history whose first two time values differ by exactly
`1`, `calc_metrics` returns the triple (mean over all rows of
`|desired_power - actual_power|`, sum over all rows of
`|desired_power - actual_power|`, sum of the absolute consecutive-row
drum-angle differences over all 8 drum columns); in particular, when the
`desired_power` and `actual_power` columns are identical, the mean and
integral absolute errors are both `0`. -/
theorem calc_metrics_formulas (r0 r1 : Row) (rest : List Row)
    (h1 : r1.time - r0.time = 1) :
    calc_metrics (r0 :: r1 :: rest)
      = some ((∑ i ∈ Finset.range (r0 :: r1 :: rest).length,
            specAbsError (r0 :: r1 :: rest) i)
              / ((r0 :: r1 :: rest).length : ℚ),
          ∑ i ∈ Finset.range (r0 :: r1 :: rest).length,
            specAbsError (r0 :: r1 :: rest) i,
          specControlEffort (r0 :: r1 :: rest))
    ∧ ((∀ r ∈ r0 :: r1 :: rest, r.desired_power = r.actual_power) →
        calc_metrics (r0 :: r1 :: rest)
          = some (0, 0, specControlEffort (r0 :: r1 :: rest))) := by
  have habs :
      ((r0 :: r1 :: rest).map (fun r => |r.desired_power - r.actual_power|)).sum
        = ∑ i ∈ Finset.range (r0 :: r1 :: rest).length,
            specAbsError (r0 :: r1 :: rest) i := by
    rw [sum_map_eq_sum_range]
    rfl
  constructor
  · simp only [calc_metrics, h1, if_pos, habs,
      drumSpeedSum_eq_specControlEffort]
  · intro hid
    have hz :
        ((r0 :: r1 :: rest).map
          (fun r => |r.desired_power - r.actual_power|)).sum = 0 := by
      rw [List.sum_eq_zero]
      intro x hx
      rw [List.mem_map] at hx
      obtain ⟨r, hr, rfl⟩ := hx
      rw [hid r hr, sub_self, abs_zero]
    simp only [calc_metrics, h1, if_pos, hz,
      drumSpeedSum_eq_specControlEffort, zero_div]

/-- Witness for C5: the two-row history `[goodRow, goodRow1]` has unit
first step and identical power columns, and yields zero MAE and IAE. -/
theorem calc_metrics_formulas_witness :
    goodRow1.time - goodRow.time = 1
    ∧ calc_metrics [goodRow, goodRow1]
      = some (0, 0, specControlEffort [goodRow, goodRow1]) := by
  refine ⟨by norm_num [goodRow, goodRow1], ?_⟩
  refine (calc_metrics_formulas goodRow goodRow1 []
    (by norm_num [goodRow, goodRow1])).2 ?_
  intro r hr
  rcases List.mem_cons.1 hr with rfl | hr
  · norm_num [goodRow]
  · rcases List.mem_cons.1 hr with rfl | hr
    · norm_num [goodRow1]
    · cases hr

/-- The comparator `find_latest_file` sorts with: descending by
modification time (`key=os.path.getmtime, reverse=True`). -/
def byMtimeDesc (a b : Entry) : Bool := decide (b.mtime ≤ a.mtime)

theorem byMtimeDesc_trans (a b c : Entry) :
    byMtimeDesc a b → byMtimeDesc b c → byMtimeDesc a c := by
  intro h1 h2
  simp only [byMtimeDesc, decide_eq_true_eq] at h1 h2 ⊢
  exact le_trans h2 h1

theorem byMtimeDesc_total (a b : Entry) :
    byMtimeDesc a b || byMtimeDesc b a := by
  simp only [byMtimeDesc, Bool.or_eq_true, decide_eq_true_eq]
  exact le_total b.mtime a.mtime

theorem mergeSort_head_max (l : List Entry) (x : Entry) (rest : List Entry)
    (h : l.mergeSort byMtimeDesc = x :: rest) :
    x ∈ l ∧ ∀ e ∈ l, e.mtime ≤ x.mtime := by
  have hperm := List.mergeSort_perm l byMtimeDesc
  have hx : x ∈ l := hperm.mem_iff.mp (by rw [h]; exact List.mem_cons_self x rest)
  refine ⟨hx, fun e he => ?_⟩
  have he' : e ∈ x :: rest := by
    rw [← h]
    exact List.mem_mergeSort.mpr he
  rcases List.mem_cons.mp he' with rfl | hrest
  · exact le_refl _
  · have hsorted := List.sorted_mergeSort byMtimeDesc_trans byMtimeDesc_total l
    rw [h] at hsorted
    have := (List.pairwise_cons.mp hsorted).1 e hrest
    simpa [byMtimeDesc] using this

/-- Unfolding of `find_latest_file` through the comparator name. -/
theorem find_latest_file_eq (folder : Folder) (pattern : String → Bool) :
    find_latest_file folder pattern
      = if folder.pathExists then
          match (globMatches folder pattern).mergeSort byMtimeDesc with
          | [] => none
          | latest :: _ => if latest.isFile then some latest else none
        else none := rfl

/-- Folder refuting C7 as stated: it exists and contains exactly one
matching entry, but that entry is a directory. -/
def c7Folder : Folder := ⟨true, [⟨"models_dir", 5, false⟩]⟩

/-- C7 counterexample: on `c7Folder` (which exists and has a matching
entry) `find_latest_file` fails (`none`) instead of returning the
matching entry with the greatest modification time. -/
theorem find_latest_file_none_despite_match :
    c7Folder.pathExists = true
    ∧ globMatches c7Folder (fun _ => true) ≠ []
    ∧ find_latest_file c7Folder (fun _ => true) = none := by
  refine ⟨rfl, ?_, ?_⟩
  · simp [globMatches, c7Folder]
  · rw [find_latest_file_eq]
    simp [globMatches, c7Folder]

/-- C7 (amended): `find_latest_file` fails when the directory does not
exist or no entry matches the pattern; otherwise the matching entry with
the greatest modification time is selected, and it is returned exactly
when it is a regular file (a directory as latest match also fails —
the `is_file` postcondition check). -/
theorem find_latest_file_spec (folder : Folder) (pattern : String → Bool) :
    (folder.pathExists = false → find_latest_file folder pattern = none)
    ∧ (globMatches folder pattern = [] → find_latest_file folder pattern = none)
    ∧ (folder.pathExists = true → globMatches folder pattern ≠ [] →
        ∃ latest, latest ∈ globMatches folder pattern
          ∧ (∀ e ∈ globMatches folder pattern, e.mtime ≤ latest.mtime)
          ∧ (latest.isFile = true → find_latest_file folder pattern = some latest)
          ∧ (latest.isFile = false → find_latest_file folder pattern = none)) := by
  refine ⟨fun hex => by rw [find_latest_file_eq, hex]; rfl, fun hmt => ?_, ?_⟩
  · rw [find_latest_file_eq, hmt]
    cases hex : folder.pathExists <;> simp
  · intro hex hne
    rcases hsort : (globMatches folder pattern).mergeSort byMtimeDesc with _ | ⟨x, rest⟩
    · exact absurd (((List.mergeSort_perm _ byMtimeDesc).symm.trans
        (List.Perm.of_eq hsort)).eq_nil) hne
    · obtain ⟨hxmem, hxmax⟩ := mergeSort_head_max _ x rest hsort
      refine ⟨x, hxmem, hxmax, fun hfile => ?_, fun hdir => ?_⟩
      · rw [find_latest_file_eq, hex, hsort]
        simp [hfile]
      · rw [find_latest_file_eq, hex, hsort]
        simp [hdir]

/-- Folder for the C7 witness and C10: the most recently modified
matching entry is a directory, an older matching regular file exists. -/
def c10Folder : Folder := ⟨true, [⟨"new_run_dir", 10, false⟩, ⟨"old_model.zip", 5, true⟩]⟩

/-- Witness for C7 (amended), on `c10Folder` with a match-all pattern. -/
theorem find_latest_file_spec_witness :
    c10Folder.pathExists = true ∧ globMatches c10Folder (fun _ => true) ≠ []
    ∧ ∃ latest, latest ∈ globMatches c10Folder (fun _ => true)
        ∧ (∀ e ∈ globMatches c10Folder (fun _ => true), e.mtime ≤ latest.mtime)
        ∧ (latest.isFile = true →
            find_latest_file c10Folder (fun _ => true) = some latest)
        ∧ (latest.isFile = false →
            find_latest_file c10Folder (fun _ => true) = none) :=
  ⟨rfl, by simp [globMatches, c10Folder],
   (find_latest_file_spec c10Folder (fun _ => true)).2.2 rfl
     (by simp [globMatches, c10Folder])⟩

/-- C10: when the most recently modified matching entry is a directory,
`find_latest_file` fails instead of falling back to the most recent
matching regular file, even when such a file exists among the matches. -/
theorem find_latest_file_dir_no_fallback (folder : Folder) (pattern : String → Bool)
    (hex : folder.pathExists = true)
    (d : Entry) (hd : d ∈ globMatches folder pattern) (hdir : d.isFile = false)
    (hmax : ∀ e ∈ globMatches folder pattern, e ≠ d → e.mtime < d.mtime)
    (f : Entry) (hf : f ∈ globMatches folder pattern) (hfile : f.isFile = true) :
    find_latest_file folder pattern = none := by
  rcases hsort : (globMatches folder pattern).mergeSort byMtimeDesc with _ | ⟨x, rest⟩
  · exact absurd (List.mem_mergeSort.mpr hd) (by rw [hsort]; simp)
  · obtain ⟨hxmem, hxmax⟩ := mergeSort_head_max _ x rest hsort
    have hxd : x = d := by
      by_contra hne
      exact absurd (hxmax d hd) (not_le.mpr (hmax x hxmem hne))
    rw [find_latest_file_eq, hex, hsort, hxd]
    simp [hdir]

/-- Witness for C10 on `c10Folder`: the newest match is the directory
`new_run_dir`; the older regular file `old_model.zip` is not returned. -/
theorem find_latest_file_dir_no_fallback_witness :
    (⟨"old_model.zip", 5, true⟩ : Entry) ∈ globMatches c10Folder (fun _ => true)
    ∧ find_latest_file c10Folder (fun _ => true) = none := by
  refine ⟨by simp [globMatches, c10Folder], ?_⟩
  refine find_latest_file_dir_no_fallback c10Folder (fun _ => true) rfl
    ⟨"new_run_dir", 10, false⟩ (by simp [globMatches, c10Folder]) rfl
    ?_ ⟨"old_model.zip", 5, true⟩ (by simp [globMatches, c10Folder]) rfl
  intro e he hne
  simp only [globMatches, c10Folder, List.filter] at he
  rcases List.mem_cons.mp he with rfl | he'
  · exact absurd rfl hne
  · rcases List.mem_cons.mp he' with rfl | he''
    · norm_num
    · cases he''

/-- The controller/environment/observation triple right after the
objective's `reset()` call, with the fresh
`PIDController(p_gain, i_gain, d_gain)` (default `max_rate = 1`). -/
def objInit (env : SingleEnv σ) (p_gain i_gain d_gain : ℚ) (s : σ) :
    PIDController × σ × SObs :=
  (PIDController.make p_gain i_gain d_gain 1, (env.reset s).1, (env.reset s).2)

theorem pid_objective_eq (env : SingleEnv σ) (p_gain i_gain d_gain : ℚ)
    (fuel : ℕ) (s : σ) :
    pid_objective env p_gain i_gain d_gain fuel s
      = pid_objective_loop env fuel (objInit env p_gain i_gain d_gain s) 0 := rfl

theorem stepInfo_succ (env : SingleEnv σ) (t : PIDController × σ × SObs) (j : ℕ) :
    stepInfo env t (j + 1) = stepInfo env (sysStep env t).1 j := rfl

theorem obj_loop_penalty (env : SingleEnv σ) :
    ∀ (k fuel : ℕ) (t : PIDController × σ × SObs) (steps : ℕ),
      k < fuel →
      (∀ j, j < k → (stepInfo env t j).1 ≤ 6 / 5
        ∧ (stepInfo env t j).2.1 = false ∧ (stepInfo env t j).2.2 = false) →
      6 / 5 < (stepInfo env t k).1 →
      pid_objective_loop env fuel t steps
        = some ⟨.penalty (1000 * (stepInfo env t k).1), steps + (k + 1), false⟩
  | k, 0, _, _, hk, _, _ => absurd hk (Nat.not_lt_zero k)
  | 0, fuel + 1, t, steps, _, _, htrip => by
    have hs0 : stepInfo env t 0 = (sysStep env t).2 := rfl
    rcases hS : sysStep env t with ⟨t', p, te, tr⟩
    rw [hs0, hS] at htrip
    rw [hs0, hS]
    simp [pid_objective_loop, hS, htrip]
  | k + 1, fuel + 1, t, steps, hk, hpre, htrip => by
    have h0 := hpre 0 (Nat.succ_pos k)
    have hs0 : stepInfo env t 0 = (sysStep env t).2 := rfl
    rcases hS : sysStep env t with ⟨t', p, te, tr⟩
    rw [hs0, hS] at h0
    have hshift : ∀ j, stepInfo env t (j + 1) = stepInfo env t' j := by
      intro j
      rw [stepInfo_succ, hS]
    have hrec := obj_loop_penalty env k fuel t' (steps + 1)
      (Nat.lt_of_succ_lt_succ hk)
      (fun j hj => by rw [← hshift j]; exact hpre (j + 1) (Nat.succ_lt_succ hj))
      (by rw [← hshift k]; exact htrip)
    rw [hshift k]
    have harith : steps + 1 + (k + 1) = steps + (k + 1 + 1) := by omega
    rw [harith] at hrec
    have hte : te = false := h0.2.1
    have htr : tr = false := h0.2.2
    simp only [pid_objective_loop, hS]
    rw [if_neg (not_lt.mpr h0.1), hte, htr]
    simpa using hrec

theorem obj_loop_finish (env : SingleEnv σ) :
    ∀ (k fuel : ℕ) (t : PIDController × σ × SObs) (steps : ℕ),
      k < fuel →
      (∀ j, j < k → (stepInfo env t j).1 ≤ 6 / 5
        ∧ (stepInfo env t j).2.1 = false ∧ (stepInfo env t j).2.2 = false) →
      ((stepInfo env t k).2.1 = true ∨ (stepInfo env t k).2.2 = true) →
      (stepInfo env t k).1 ≤ 6 / 5 →
      pid_objective_loop env fuel t steps
        = some ⟨objFinish env (runSys env (k + 1) t).2.1, steps + (k + 1), true⟩
  | k, 0, _, _, hk, _, _, _ => absurd hk (Nat.not_lt_zero k)
  | 0, fuel + 1, t, steps, _, _, hterm, hsafe => by
    have hs0 : stepInfo env t 0 = (sysStep env t).2 := rfl
    have hrun : runSys env 1 t = (sysStep env t).1 := rfl
    rcases hS : sysStep env t with ⟨t', p, te, tr⟩
    rw [hs0, hS] at hterm hsafe
    rw [hrun, hS]
    have hb : (te || tr) = true := by
      rcases hterm with h | h <;> simp_all
    simp [pid_objective_loop, hS, not_lt.mpr hsafe, hb]
  | k + 1, fuel + 1, t, steps, hk, hpre, hterm, hsafe => by
    have h0 := hpre 0 (Nat.succ_pos k)
    have hs0 : stepInfo env t 0 = (sysStep env t).2 := rfl
    rcases hS : sysStep env t with ⟨t', p, te, tr⟩
    rw [hs0, hS] at h0
    have hshift : ∀ j, stepInfo env t (j + 1) = stepInfo env t' j := by
      intro j
      rw [stepInfo_succ, hS]
    have hrunshift : runSys env (k + 1 + 1) t = runSys env (k + 1) t' := by
      rw [show runSys env (k + 1 + 1) t = runSys env (k + 1) (sysStep env t).1 from rfl, hS]
    have hrec := obj_loop_finish env k fuel t' (steps + 1)
      (Nat.lt_of_succ_lt_succ hk)
      (fun j hj => by rw [← hshift j]; exact hpre (j + 1) (Nat.succ_lt_succ hj))
      (by rw [← hshift k]; exact hterm)
      (by rw [← hshift k]; exact hsafe)
    rw [hrunshift]
    have harith : steps + 1 + (k + 1) = steps + (k + 1 + 1) := by omega
    rw [harith] at hrec
    have hte : te = false := h0.2.1
    have htr : tr = false := h0.2.2
    simp only [pid_objective_loop, hS]
    rw [if_neg (not_lt.mpr h0.1), hte, htr]
    simpa using hrec

/-- C1: behaviour of the tuning objective returned by `tune_pid`.  Let
step `k` be the first step of the episode at which either the observed
post-step power exceeds `1.2` or the episode terminates (all earlier
steps are non-terminal with power at most `1.2`).  If the power at step
`k` exceeds `1.2`, the objective returns `1000 *` that observed power
right there: the environment was stepped exactly `k + 1` times (never
further), `render` (history finalization) was not called, and no metrics
were computed (the value is a `.penalty`, not an `.iae`).  Otherwise, if
step `k` reports terminated-or-truncated with power at most `1.2`, the
objective renders and returns exactly the `integral_absolute_error`
component computed by `calc_metrics` from the resulting history. -/
theorem pid_objective_trip_or_iae (env : SingleEnv σ)
    (p_gain i_gain d_gain : ℚ) (s : σ) (fuel k : ℕ) (hk : k < fuel)
    (hpre : ∀ j, j < k →
      (stepInfo env (objInit env p_gain i_gain d_gain s) j).1 ≤ 6 / 5
      ∧ (stepInfo env (objInit env p_gain i_gain d_gain s) j).2.1 = false
      ∧ (stepInfo env (objInit env p_gain i_gain d_gain s) j).2.2 = false) :
    (6 / 5 < (stepInfo env (objInit env p_gain i_gain d_gain s) k).1 →
      pid_objective env p_gain i_gain d_gain fuel s
        = some ⟨.penalty
            (1000 * (stepInfo env (objInit env p_gain i_gain d_gain s) k).1),
          k + 1, false⟩)
    ∧ (((stepInfo env (objInit env p_gain i_gain d_gain s) k).2.1 = true
        ∨ (stepInfo env (objInit env p_gain i_gain d_gain s) k).2.2 = true) →
      (stepInfo env (objInit env p_gain i_gain d_gain s) k).1 ≤ 6 / 5 →
      ∀ mae iae ce,
        calc_metrics (env.history (env.render
            (runSys env (k + 1) (objInit env p_gain i_gain d_gain s)).2.1))
          = some (mae, iae, ce) →
        pid_objective env p_gain i_gain d_gain fuel s
          = some ⟨.iae iae, k + 1, true⟩) := by
  constructor
  · intro htrip
    rw [pid_objective_eq]
    have h := obj_loop_penalty env k fuel
      (objInit env p_gain i_gain d_gain s) 0 hk hpre htrip
    simpa using h
  · intro hterm hsafe mae iae ce hcm
    rw [pid_objective_eq]
    have h := obj_loop_finish env k fuel
      (objInit env p_gain i_gain d_gain s) 0 hk hpre hterm hsafe
    rw [objFinish, hcm] at h
    simpa using h

/-- Power trajectory for the C1 witness environment: nominal until the
second step, then a runaway value `2 > 1.2`. -/
def c1Power (n : ℕ) : ℚ := if n < 2 then 1 else 2

/-- Concrete single-agent environment for the C1 witness: the state is a
step counter; powers follow `c1Power`; the episode never terminates on
its own within the fuel bound. -/
def c1Env : SingleEnv ℕ :=
  ⟨fun s => (s, ⟨1⟩),
   fun s _ => (s + 1, ⟨c1Power (s + 1)⟩, false, false),
   fun _ => 1,
   fun s => (s : ℚ),
   id,
   fun _ => [goodRow, goodRow1]⟩

/-- Witness for C1: on `c1Env` the power first exceeds `1.2` at step
index `1` (value `2`), and the objective returns the `1000 ×` penalty
having stepped exactly twice, without rendering. -/
theorem pid_objective_trip_or_iae_witness :
    6 / 5 < (stepInfo c1Env (objInit c1Env 1 0 0 0) 1).1
    ∧ pid_objective c1Env 1 0 0 10 0
      = some ⟨.penalty (1000 * (stepInfo c1Env (objInit c1Env 1 0 0 0) 1).1),
          2, false⟩ := by
  have htrip : 6 / 5 < (stepInfo c1Env (objInit c1Env 1 0 0 0) 1).1 := by
    simp [stepInfo, sysStep, runSys, c1Env, objInit, PIDController.make,
      PIDController.update, npClip, c1Power]
    norm_num
  have hpre : ∀ j, j < 1 →
      (stepInfo c1Env (objInit c1Env 1 0 0 0) j).1 ≤ 6 / 5
      ∧ (stepInfo c1Env (objInit c1Env 1 0 0 0) j).2.1 = false
      ∧ (stepInfo c1Env (objInit c1Env 1 0 0 0) j).2.2 = false := by
    intro j hj
    interval_cases j
    refine ⟨?_, ?_, ?_⟩ <;>
      simp [stepInfo, sysStep, runSys, c1Env, objInit, PIDController.make,
        PIDController.update, npClip, c1Power] <;> norm_num
  exact ⟨htrip,
    (pid_objective_trip_or_iae c1Env 1 0 0 0 10 1 (by norm_num) hpre).1 htrip⟩
